import Mathlib

/-!
Shallow embedding of the analects tracing PDF generator:
`hanja_dictionary.py` (gloss resolution) and `analects_tracing.py`
(layout calculation and the row and passage renderers).

Strings are modelled as lists of characters (Python `str`), page
coordinates as rationals (the Python floats here only ever carry small
decimal fractions), the external collaborators (the base hanja
dictionary, Unicode normalization, the drawing surface's text metrics)
as explicit parameters, and the drawing surface as a trace of emitted
drawing operations.
-/

namespace Analects

abbrev Str := List Char

/-- Python `s.split(sep)` for a one-character separator: splits at
every occurrence of the separator, keeping empty pieces. -/
def splitOnChar (sep : Char) : Str → List Str
  | [] => [[]]
  | c :: rest =>
    let r := splitOnChar sep rest
    if c = sep then [] :: r
    else
      match r with
      | [] => [[c]]
      | h :: t => (c :: h) :: t

/-- Python `s.strip()`: drop leading and trailing whitespace. -/
def stripChars (s : Str) : Str :=
  ((s.dropWhile Char.isWhitespace).reverse.dropWhile Char.isWhitespace).reverse

/-- Python `s.split()` with no separator: split on whitespace runs,
discarding empty pieces. -/
def splitWSAux : Str → Str → List Str
  | [], acc => if acc = [] then [] else [acc.reverse]
  | c :: rest, acc =>
    if c.isWhitespace then
      if acc = [] then splitWSAux rest []
      else acc.reverse :: splitWSAux rest []
    else splitWSAux rest (c :: acc)

/-- Python `s.split()` with no separator. -/
def splitWS (s : Str) : List Str := splitWSAux s []

/-- Python `dict` lookup on string keys, modelled over an association
list of key and value pairs. -/
def lookupAssoc (d : List (Str × Str)) (k : Str) : Option Str :=
  (d.find? (fun p => p.1 == k)).map Prod.snd

/-- The hand-enumerated Sino-Korean sound-change families of
`get_hanja_meaning` in `hanja_dictionary.py`. -/
def soundFamilies : List (List Str) :=
  [["불".toList, "부".toList],
   ["락".toList, "낙".toList, "악".toList, "요".toList],
   ["륙".toList, "육".toList],
   ["례".toList, "예".toList]]

/-- The source tests each family with a two-element subset check, which
amounts to one family containing both sounds. -/
def sameFamily (a b : Str) : Bool :=
  soundFamilies.any (fun f => f.contains a && f.contains b)

/-- The loop body of `get_hanja_meaning`: a candidate matches the
preferred sound when its trailing whitespace-separated token equals it
or shares a sound family with it; a candidate with no tokens is
skipped. -/
def matchesSound (pref : Str) (cand : Str) : Bool :=
  match (splitWS cand).getLast? with
  | none => false
  | some actual => actual == pref || sameFamily actual pref

/-- The comma-separated candidate list, each candidate stripped. -/
def splitCandidates (result : Str) : List Str :=
  (splitOnChar ',' result).map stripChars

/-- The default (first) candidate of a dictionary result. -/
def firstCandidate (result : Str) : Str :=
  (splitCandidates result).headD []

/-- External collaborators of the gloss resolver: the user override
table (`custom_meanings.json`), the base hanja dictionary
(`hanjadict`, a finite key-value table) and Unicode NFKC
normalization. -/
structure DictEnv where
  custom : List (Str × Str)
  base : List (Str × Str)
  normalize : Str → Str

/-- The candidate-selection tail of `get_hanja_meaning`, applied to a
non-empty dictionary result: scan the candidates in order for the
preferred sound and otherwise fall back to the first candidate. An
empty preferred sound is falsy in the source, so it disables the
scan. -/
def resolveFromResult (result : Str) (preferred_sound : Option Str) : Str :=
  let candidates := splitCandidates result
  let fallback := candidates.headD []
  match preferred_sound with
  | none => fallback
  | some pref =>
    if pref = [] then fallback
    else
      match candidates.find? (matchesSound pref) with
      | some cand => cand
      | none => fallback

/-- Embedding of `get_hanja_meaning` from `hanja_dictionary.py`.
A Python `None` and an empty-string lookup result both count as a
miss (the source tests `if not result`). -/
def get_hanja_meaning (d : DictEnv) (char : Str) (preferred_sound : Option Str) : Str :=
  if char.length ≠ 1 then []
  else
    match lookupAssoc d.custom char with
    | some m => m
    | none =>
      let normalized := d.normalize char
      match lookupAssoc d.custom normalized with
      | some m => m
      | none =>
        let r0 := (lookupAssoc d.base normalized).getD []
        let result := if r0 = [] then (lookupAssoc d.base char).getD [] else r0
        if result = [] then []
        else resolveFromResult result preferred_sound

/-- Page and design configuration (`Config` in `analects_tracing.py`).
Color fields are omitted: the drawing trace of this embedding does not
record stroke or text colors. The field `font_scale` is the source's
`font_ratio = 0.78` and `mm_to_pt` its exact value `1 / 0.3528`. -/
structure Config where
  page_width : ℚ
  page_height : ℚ
  margin_left : ℚ
  margin_right : ℚ
  margin_top : ℚ
  margin_bottom : ℚ
  default_cell_size : ℚ
  min_cell_size : ℚ
  max_cell_size : ℚ
  chars_per_line : ℤ
  border_width : ℚ
  dash_width : ℚ
  dash_length : ℚ
  dash_gap : ℚ
  label_height : ℚ
  interp_height : ℚ
  reading_height : ℚ
  meaning_height : ℚ
  row_gap : ℚ
  passage_gap : ℚ
  interp_practice_lines : ℕ
  interp_practice_height : ℚ
  font_scale : ℚ
  mm_to_pt : ℚ

def Config.usable_width (cfg : Config) : ℚ :=
  cfg.page_width - cfg.margin_left - cfg.margin_right

def Config.usable_height (cfg : Config) : ℚ :=
  cfg.page_height - cfg.margin_top - cfg.margin_bottom

/-- The source's default `Config()` values. -/
def defaultConfig : Config where
  page_width := 210
  page_height := 297
  margin_left := 15
  margin_right := 15
  margin_top := 20
  margin_bottom := 15
  default_cell_size := 30
  min_cell_size := 20
  max_cell_size := 30
  chars_per_line := 6
  border_width := 3/10
  dash_width := 15/100
  dash_length := 3/2
  dash_gap := 3/2
  label_height := 7
  interp_height := 8
  reading_height := 6
  meaning_height := 5
  row_gap := 4
  passage_gap := 12
  interp_practice_lines := 3
  interp_practice_height := 12
  font_scale := 78/100
  mm_to_pt := 1250/441

/-- `PassageData` in the source. -/
structure Passage where
  label : Str
  original : Str
  interpretation : Str
  reading : Str

/-- One emitted drawing-surface call. Text placed by the ghost row's
per-cell gloss block is tagged `meaningText` so the two text call
sites of the source stay distinguishable in the trace. -/
inductive DrawOp where
  | addPage : DrawOp
  | text : ℚ → ℚ → Str → DrawOp
  | meaningText : ℚ → ℚ → Str → DrawOp
  | line : ℚ → ℚ → ℚ → ℚ → DrawOp
  | rect : ℚ → ℚ → ℚ → ℚ → DrawOp
  | multiCell : ℚ → ℚ → Str → DrawOp
deriving DecidableEq

/-- The renderer's collaborators: the gloss resolver's tables and the
drawing surface's text metrics, namely `get_string_width` under a
given font size and the cursor position reported after `multi_cell`. -/
structure Env where
  dict : DictEnv
  strWidth : ℚ → Str → ℚ
  multiCellEnd : ℚ → ℚ → Str → ℚ

/-- Embedding of `calculate_layout`. `none` models the Python
`ZeroDivisionError` on a zero character count. The characters-per-line
component is an integer because Python `int(w // cell)` can in
principle be non-positive. The source's second rule (`n_chars <= 9`)
and its third rule return the same pair under the same guard, and are
kept as two separate rules here. -/
def calculate_layout (w min_cell max_cell : ℚ) (n_chars : ℕ) : Option (ℚ × ℤ) :=
  if n_chars = 0 then none
  else if n_chars ≤ 6 then
    some (max (min (w / n_chars) max_cell) min_cell, (n_chars : ℤ))
  else if n_chars ≤ 9 ∧ min_cell ≤ w / n_chars then
    some (w / n_chars, (n_chars : ℤ))
  else if min_cell ≤ w / n_chars then
    some (w / n_chars, (n_chars : ℤ))
  else
    some (min_cell, ⌊w / min_cell⌋)

/-- Embedding of `calculate_font_size`. -/
def calculate_font_size (cfg : Config) (cell : ℚ) : ℚ :=
  cell * cfg.font_scale * cfg.mm_to_pt

/-- Fuel-indexed list chunking; with positive `k` and fuel at least
the list length this is the slicing loop
`[chars[i:i+k] for i in range(0, len(chars), k)]`. -/
def chunksAux {α : Type} : ℕ → List α → ℕ → List (List α)
  | 0, _, _ => []
  | _, [], _ => []
  | fuel + 1, l, k => l.take k :: chunksAux fuel (l.drop k) k

/-- Python slicing loop driven by `range(0, len, k)`: `none` models
the `ValueError` raised for step zero; a negative step yields no
slices at all. -/
def pyChunks {α : Type} (l : List α) (k : ℤ) : Option (List (List α)) :=
  if k = 0 then none
  else if k < 0 then some []
  else some (chunksAux l.length l k.toNat)

/-- Python `math.ceil(n / k)` through float true division: `none`
models the `ZeroDivisionError` for `k = 0`. -/
def pyCeilDiv (n : ℕ) (k : ℤ) : Option ℤ :=
  if k = 0 then none else some ⌈(n : ℚ) / (k : ℚ)⌉

/-- The per-character text placements of one line of the original
row; `x` advances by one cell per character. -/
def originalLineOps (env : Env) (font_size cell y : ℚ) : Str → ℚ → List DrawOp
  | [], _ => []
  | ch :: rest, x =>
    DrawOp.text (x + (cell - env.strWidth font_size [ch]) / 2) (y + cell * (72/100)) [ch]
      :: originalLineOps env font_size cell y rest (x + cell)

/-- All wrapped lines of the original row; `y` advances by one cell
per line. -/
def originalLinesOps (env : Env) (font_size cell x0 : ℚ) :
    List Str → ℚ → List DrawOp × ℚ
  | [], y => ([], y)
  | l :: ls, y =>
    let ops := originalLineOps env font_size cell y l x0
    let rest := originalLinesOps env font_size cell x0 ls (y + cell)
    (ops ++ rest.1, rest.2)

/-- Embedding of `render_original_row`: emphasised characters, the
reading line when the reading is non-empty, then the wrapped
translation paragraph. No page-break check is made here. -/
def render_original_row (cfg : Config) (env : Env) (chars : Str)
    (interpretation : Str) (cell : ℚ) (cpl : ℤ) (y0 : ℚ) (reading : Str) :
    Option (List DrawOp × ℚ) :=
  let font_size := calculate_font_size cfg cell
  match pyChunks chars cpl with
  | none => none
  | some lines =>
    let body := originalLinesOps env font_size cell cfg.margin_left lines y0
    let text_x := cfg.margin_left + 1
    let afterReading :=
      if reading = [] then (([] : List DrawOp), body.2)
      else ([DrawOp.text text_x (body.2 + cfg.reading_height * (65/100)) reading],
            body.2 + cfg.reading_height)
    let yEnd := env.multiCellEnd text_x afterReading.2 interpretation + 2
    some (body.1 ++ afterReading.1 ++ [DrawOp.multiCell text_x afterReading.2 interpretation],
          yEnd)

/-- Embedding of `draw_dashed_cross`. -/
def dashedCrossOps (x y size : ℚ) : List DrawOp :=
  [DrawOp.line x (y + size / 2) (x + size) (y + size / 2),
   DrawOp.line (x + size / 2) y (x + size / 2) (y + size)]

/-- Embedding of `draw_grid_cell`: cross guides then the border. -/
def gridCellOps (x y size : ℚ) : List DrawOp :=
  dashedCrossOps x y size ++ [DrawOp.rect x y size size]

/-- One ghost cell: the grid, the faint character, and the gloss
block with its re-measuring font shrink when the gloss is wider than
the cell plus two. The gloss lookup passes no preferred sound. -/
def ghostCellOps (cfg : Config) (env : Env) (font_size cell x y : ℚ) (ch : Char) :
    List DrawOp :=
  let charOp :=
    DrawOp.text (x + (cell - env.strWidth font_size [ch]) / 2) (y + cell * (72/100)) [ch]
  let meaning := get_hanja_meaning env.dict [ch] none
  let meaningOps :=
    if meaning = [] then []
    else
      let m_width := env.strWidth 7 meaning
      let m_y := y + cell + cfg.meaning_height * (7/10)
      if cell + 2 < m_width then
        [DrawOp.meaningText (x + (cell - env.strWidth 5 meaning) / 2) m_y meaning]
      else
        [DrawOp.meaningText (x + (cell - m_width) / 2) m_y meaning]
  gridCellOps x y cell ++ [charOp] ++ meaningOps

/-- One line of ghost cells; `x` advances by one cell per character. -/
def ghostLineOps (cfg : Config) (env : Env) (font_size cell y : ℚ) : Str → ℚ → List DrawOp
  | [], _ => []
  | ch :: rest, x =>
    ghostCellOps cfg env font_size cell x y ch
      ++ ghostLineOps cfg env font_size cell y rest (x + cell)

/-- All wrapped lines of the ghost row; `y` advances by the row
height (cell plus gloss box) per line. -/
def ghostLinesOps (cfg : Config) (env : Env) (font_size cell row_height : ℚ) :
    List Str → ℚ → List DrawOp × ℚ
  | [], y => ([], y)
  | l :: ls, y =>
    let ops := ghostLineOps cfg env font_size cell y l cfg.margin_left
    let rest := ghostLinesOps cfg env font_size cell row_height ls (y + row_height)
    (ops ++ rest.1, rest.2)

/-- Embedding of `render_ghost_row`: the pre-check compares the full
block height, rows times cell plus gloss-box height, against the
bottom margin, adds one page and resets the offset when it would
overflow, then draws. -/
def render_ghost_row (cfg : Config) (env : Env) (chars : Str) (cell : ℚ) (cpl : ℤ)
    (y0 : ℚ) : Option (List DrawOp × ℚ) :=
  let font_size := calculate_font_size cfg cell
  let row_height := cell + cfg.meaning_height
  match pyCeilDiv chars.length cpl with
  | none => none
  | some n_rows =>
    let pre :=
      if cfg.page_height - cfg.margin_bottom < y0 + (n_rows : ℚ) * row_height then
        ([DrawOp.addPage], cfg.margin_top)
      else (([] : List DrawOp), y0)
    match pyChunks chars cpl with
    | none => none
    | some lines =>
      let body := ghostLinesOps cfg env font_size cell row_height lines pre.2
      some (pre.1 ++ body.1, body.2)

/-- One line of blank practice cells. -/
def practiceLineOps (cell y : ℚ) : ℕ → ℚ → List DrawOp
  | 0, _ => []
  | k + 1, x => gridCellOps x y cell ++ practiceLineOps cell y k (x + cell)

/-- The row loop of `render_practice_row`, counting down the
remaining characters; `y` advances by one cell per line. -/
def practiceLoop (cfg : Config) (cell : ℚ) (cpl : ℤ) : ℕ → ℤ → ℚ → List DrawOp × ℚ
  | 0, _, y => ([], y)
  | k + 1, remaining, y =>
    let n_in_line := min remaining cpl
    let ops := practiceLineOps cell y n_in_line.toNat cfg.margin_left
    let rest := practiceLoop cfg cell cpl k (remaining - n_in_line) (y + cell)
    (ops ++ rest.1, rest.2)

/-- Embedding of `render_practice_row`: the pre-check compares rows
times the bare cell size against the bottom margin, and the drawn
cells carry neither a character nor a gloss box. -/
def render_practice_row (cfg : Config) (n_chars : ℕ) (cell : ℚ) (cpl : ℤ) (y0 : ℚ) :
    Option (List DrawOp × ℚ) :=
  match pyCeilDiv n_chars cpl with
  | none => none
  | some n_rows =>
    let pre :=
      if cfg.page_height - cfg.margin_bottom < y0 + (n_rows : ℚ) * cell then
        ([DrawOp.addPage], cfg.margin_top)
      else (([] : List DrawOp), y0)
    let body := practiceLoop cfg cell cpl n_rows.toNat (n_chars : ℤ) pre.2
    some (pre.1 ++ body.1, body.2)

/-- The ruled lines of the interpretation practice block; `y`
advances by the line height before each line is drawn. -/
def ruledLinesOps (cfg : Config) : ℕ → ℚ → List DrawOp × ℚ
  | 0, y => ([], y)
  | k + 1, y =>
    let y1 := y + cfg.interp_practice_height
    let rest := ruledLinesOps cfg k y1
    (DrawOp.line cfg.margin_left y1 (cfg.page_width - cfg.margin_right) y1 :: rest.1, rest.2)

/-- Embedding of `render_interp_practice`: its own overflow
pre-check, a small label, then the fixed number of ruled lines. -/
def render_interp_practice (cfg : Config) (y0 : ℚ) : List DrawOp × ℚ :=
  let needed := (cfg.interp_practice_lines : ℚ) * cfg.interp_practice_height
  let pre :=
    if cfg.page_height - cfg.margin_bottom < y0 + needed then
      ([DrawOp.addPage], cfg.margin_top)
    else (([] : List DrawOp), y0)
  let labelOp := DrawOp.text cfg.margin_left (pre.2 + 4) "[해석 필사]".toList
  let body := ruledLinesOps cfg cfg.interp_practice_lines (pre.2 + 6)
  (pre.1 ++ labelOp :: body.1, body.2)

/-- Embedding of `render_passage`. The source's page-zero conditional
adds a page in both of its branches, so the trace starts with one
unconditional `addPage` whatever the current page index is, and the
cursor is then reset to the top margin. On a mid-passage failure the
operations already emitted are kept and the second component is
`none`: the Python exception aborts the build after those drawing
calls have been issued. -/
def render_passage (cfg : Config) (env : Env) (p : Passage) : List DrawOp × Option ℚ :=
  match calculate_layout cfg.usable_width cfg.min_cell_size cfg.max_cell_size
      p.original.length with
  | none => ([], none)
  | some (cell, cpl) =>
    let labelOp :=
      DrawOp.text cfg.margin_left (cfg.margin_top + cfg.label_height * (65/100)) p.label
    let y1 := cfg.margin_top + cfg.label_height
    match render_original_row cfg env p.original p.interpretation cell cpl y1 p.reading with
    | none => ([DrawOp.addPage, labelOp], none)
    | some r1 =>
      match render_ghost_row cfg env p.original cell cpl (r1.2 + cfg.row_gap) with
      | none => (DrawOp.addPage :: labelOp :: r1.1, none)
      | some r2 =>
        match render_practice_row cfg p.original.length cell cpl (r2.2 + cfg.row_gap) with
        | none => (DrawOp.addPage :: labelOp :: (r1.1 ++ r2.1), none)
        | some r3 =>
          let r4 := render_interp_practice cfg (r3.2 + cfg.row_gap)
          (DrawOp.addPage :: labelOp :: (r1.1 ++ r2.1 ++ r3.1 ++ r4.1),
           some (r4.2 + cfg.passage_gap))

/-- Embedding of `generate`: the per-passage drawing traces in input
order, stopping at the first failing passage, whose partial trace is
kept. -/
def generate (cfg : Config) (env : Env) : List Passage → List (List DrawOp)
  | [] => []
  | p :: ps =>
    match render_passage cfg env p with
    | (ops, none) => [ops]
    | (ops, some _) => ops :: generate cfg env ps

/-- One for `addPage`, zero for every other operation. -/
def pageIncr : DrawOp → ℕ
  | DrawOp.addPage => 1
  | _ => 0

/-- Number of `addPage` calls in a trace. -/
def countAddPage (ops : List DrawOp) : ℕ :=
  (ops.map pageIncr).sum

/-- The gloss string of a ghost-cell gloss placement, if any. -/
def glossOf : DrawOp → Option Str
  | DrawOp.meaningText _ _ s => some s
  | _ => none

/-- The gloss strings placed by ghost cells, in drawing order. -/
def ghostGlosses (ops : List DrawOp) : List Str :=
  ops.filterMap glossOf

/-- Drawing operations of an optional row result. -/
def opsOf (r : Option (List DrawOp × ℚ)) : List DrawOp :=
  match r with
  | none => []
  | some r => r.1

/-- Whether an operation is a page break or part of a bare grid cell. -/
def isPageOrGrid : DrawOp → Bool
  | DrawOp.addPage => true
  | DrawOp.line _ _ _ _ => true
  | DrawOp.rect _ _ _ _ => true
  | _ => false

/-- Page on which the i-th passage block starts. Pages are created
only by `addPage`, a fresh document is at page index zero, and each
block's first operation is its own `addPage`, so the block starts on
the page numbered one past all earlier page creations. -/
def startPage (blocks : List (List DrawOp)) (i : ℕ) : ℕ :=
  1 + ((blocks.take i).map countAddPage).sum

/-- Modelled from the spec: the composer's phonetic-syllable
extraction for per-character sound hints. No function of the source
implements it (`render_passage` never inspects the reading when it
resolves glosses); the spec describes extracting the reading string's
phonetic-syllable characters, that is, its precomposed Hangul
syllables. -/
def extract_phonetic_syllables (reading : Str) : Str :=
  reading.filter (fun c => decide (0xAC00 ≤ c.toNat ∧ c.toNat ≤ 0xD7A3))

/-- Sample collaborator tables with identity normalization: the base
dictionary carries exactly the entries under test. The entry for 樂 is
the polyphonic candidate list named by the spec, the one for 復 a
polyphonic pair whose sounds belong to no common sound family, and
the one for 子 a single candidate. -/
def lakDict : DictEnv where
  custom := []
  base := [("樂".toList, "즐거울 락, 노래 악, 좋아할 요".toList)]
  normalize := id

def bokDict : DictEnv where
  custom := []
  base := [("復".toList, "다시 부, 회복할 복".toList)]
  normalize := id

def jaDict : DictEnv where
  custom := []
  base := [("子".toList, "아들 자".toList)]
  normalize := id

/-- An override table holding a user gloss for 樂. -/
def customLak : List (Str × Str) := [("樂".toList, "풍류 악".toList)]

/-- Collaborator tables with a non-empty override table and a
non-empty base dictionary. -/
def mixedDict : DictEnv where
  custom := [("樂".toList, "풍류 악".toList)]
  base := [("子".toList, "아들 자".toList)]
  normalize := id

/-- A drawing surface whose text metrics are identically zero; the
structure of the emitted trace does not depend on them. -/
def flatEnv (d : DictEnv) : Env where
  dict := d
  strWidth := fun _ _ => 0
  multiCellEnd := fun _ y _ => y

/-- A one-character passage whose reading consists of exactly one
phonetic syllable, the reading 복 of 復 that differs from the
dictionary's first candidate sound 부. -/
def bokPassage : Passage where
  label := "구절 1".toList
  original := "復".toList
  interpretation := "다시 돌아온다".toList
  reading := "복".toList

/-- A configuration whose usable width, ten, is smaller than the
minimum cell size, so that the wrap fallback computes zero characters
per line. -/
def narrowConfig : Config :=
  { defaultConfig with page_width := 40 }

/-- A seven-character passage, long enough to leave the single-line
layout rules. -/
def sevenPassage : Passage where
  label := "구절 2".toList
  original := "學而時習之不亦".toList
  interpretation := "배우고 때로 익히면".toList
  reading := "학이시습지불역".toList

/-- A two-passage input for the document-level witnesses. -/
def twoPassages : List Passage :=
  [{ label := "구절 3".toList, original := "子曰".toList,
     interpretation := "말씀하셨다".toList, reading := "자왈".toList },
   bokPassage]

/-- Well-formedness of the collaborator tables: override glosses are
non-empty strings, and every base dictionary entry has a non-empty
first candidate. -/
def dictWF (d : DictEnv) : Prop :=
  (∀ kv ∈ d.custom, kv.2 ≠ ([] : Str)) ∧
  (∀ kv ∈ d.base, firstCandidate kv.2 ≠ ([] : Str))

/-- The body the ghost row draws after a page break: its lines laid
out starting from the top margin. -/
def ghostBodyAt (cfg : Config) (env : Env) (chars : Str) (cell : ℚ) (cpl : ℤ) :
    List DrawOp × ℚ :=
  ghostLinesOps cfg env (calculate_font_size cfg cell) cell (cell + cfg.meaning_height)
    (chunksAux chars.length chars cpl.toNat) cfg.margin_top

/-- The fresh-page property of one document build: one block of
operations per passage; every block opens with its own page creation
followed directly by the passage label placed at the top margin; and
the starting pages strictly increase, so no two passages share one. -/
def freshPageSpec (cfg : Config) (env : Env) (ps : List Passage) : Prop :=
  (generate cfg env ps).length = ps.length ∧
  (∀ i (hb : i < (generate cfg env ps).length) (hp : i < ps.length),
    ∃ rest, (generate cfg env ps).get ⟨i, hb⟩ =
      DrawOp.addPage :: DrawOp.text cfg.margin_left
        (cfg.margin_top + cfg.label_height * (65/100)) ((ps.get ⟨i, hp⟩).label) :: rest) ∧
  (∀ i j, i < j → j < (generate cfg env ps).length →
    startPage (generate cfg env ps) i < startPage (generate cfg env ps) j)

/-! Helper lemmas. -/

@[simp] theorem pageIncr_addPage : pageIncr DrawOp.addPage = 1 := rfl

@[simp] theorem pageIncr_text (x y : ℚ) (s : Str) : pageIncr (DrawOp.text x y s) = 0 := rfl

@[simp] theorem pageIncr_meaningText (x y : ℚ) (s : Str) :
    pageIncr (DrawOp.meaningText x y s) = 0 := rfl

@[simp] theorem pageIncr_line (a b c d : ℚ) : pageIncr (DrawOp.line a b c d) = 0 := rfl

@[simp] theorem pageIncr_rect (a b c d : ℚ) : pageIncr (DrawOp.rect a b c d) = 0 := rfl

@[simp] theorem pageIncr_multiCell (x y : ℚ) (s : Str) :
    pageIncr (DrawOp.multiCell x y s) = 0 := rfl

@[simp] theorem glossOf_addPage : glossOf DrawOp.addPage = none := rfl

@[simp] theorem glossOf_text (x y : ℚ) (s : Str) : glossOf (DrawOp.text x y s) = none := rfl

@[simp] theorem glossOf_meaningText (x y : ℚ) (s : Str) :
    glossOf (DrawOp.meaningText x y s) = some s := rfl

@[simp] theorem glossOf_line (a b c d : ℚ) : glossOf (DrawOp.line a b c d) = none := rfl

@[simp] theorem glossOf_rect (a b c d : ℚ) : glossOf (DrawOp.rect a b c d) = none := rfl

@[simp] theorem glossOf_multiCell (x y : ℚ) (s : Str) :
    glossOf (DrawOp.multiCell x y s) = none := rfl

@[simp] theorem countAddPage_nil : countAddPage [] = 0 := rfl

@[simp] theorem countAddPage_cons (op : DrawOp) (ops : List DrawOp) :
    countAddPage (op :: ops) = pageIncr op + countAddPage ops := rfl

@[simp] theorem countAddPage_append (a b : List DrawOp) :
    countAddPage (a ++ b) = countAddPage a + countAddPage b := by
  simp [countAddPage]

@[simp] theorem ghostGlosses_nil : ghostGlosses [] = [] := rfl

@[simp] theorem ghostGlosses_append (a b : List DrawOp) :
    ghostGlosses (a ++ b) = ghostGlosses a ++ ghostGlosses b := by
  simp [ghostGlosses]

theorem ghostGlosses_cons (op : DrawOp) (ops : List DrawOp) :
    ghostGlosses (op :: ops) =
      (match glossOf op with
       | some s => s :: ghostGlosses ops
       | none => ghostGlosses ops) := by
  simp [ghostGlosses, List.filterMap_cons]
  cases glossOf op <;> simp

/-- Invariant of `calculate_layout` shared by several claims: with at
least one character and a usable width at least the minimum cell
size, the layout succeeds, the cell is at least the minimum, the
characters-per-line count is between one and the character count, and
it is strictly below the character count exactly on the wrap
fallback. -/
theorem layout_spec (w mn mx : ℚ) (n : ℕ) (hn : 1 ≤ n) (hw : mn ≤ w) :
    ∃ cell cpl, calculate_layout w mn mx n = some (cell, cpl) ∧
      mn ≤ cell ∧ 1 ≤ cpl ∧ cpl ≤ (n : ℤ) ∧
      (6 < n → w / (n : ℚ) < mn → cpl < (n : ℤ)) := by
  have hn0 : n ≠ 0 := by omega
  have hnq : (0 : ℚ) < (n : ℚ) := by exact_mod_cast Nat.pos_of_ne_zero hn0
  unfold calculate_layout
  rw [if_neg hn0]
  by_cases h6 : n ≤ 6
  · rw [if_pos h6]
    exact ⟨_, _, rfl, le_max_right _ _, by exact_mod_cast hn, le_refl _, fun h => by omega⟩
  · rw [if_neg h6]
    by_cases h9 : n ≤ 9 ∧ mn ≤ w / (n : ℚ)
    · rw [if_pos h9]
      exact ⟨_, _, rfl, h9.2, by exact_mod_cast hn, le_refl _,
        fun _ hlt => absurd h9.2 (not_le.mpr hlt)⟩
    · rw [if_neg h9]
      by_cases h3 : mn ≤ w / (n : ℚ)
      · rw [if_pos h3]
        exact ⟨_, _, rfl, h3, by exact_mod_cast hn, le_refl _,
          fun _ hlt => absurd h3 (not_le.mpr hlt)⟩
      · rw [if_neg h3]
        push_neg at h3
        have hmn0 : 0 < mn := by
          by_contra hle
          push_neg at hle
          have hstep : mn * (n : ℚ) ≤ mn * 1 := by
            apply mul_le_mul_of_nonpos_left _ hle
            exact_mod_cast hn
          have : mn ≤ w / (n : ℚ) := by
            rw [le_div_iff₀ hnq]
            calc mn * (n : ℚ) ≤ mn * 1 := hstep
              _ = mn := mul_one mn
              _ ≤ w := hw
          exact absurd this (not_le.mpr h3)
        have h1q : (1 : ℚ) ≤ w / mn := (one_le_div hmn0).mpr hw
        have hfl1 : (1 : ℤ) ≤ ⌊w / mn⌋ := Int.le_floor.mpr (by exact_mod_cast h1q)
        have hlt : w / mn < (n : ℚ) := by
          rw [div_lt_iff₀ hmn0]
          have hwlt : w < mn * (n : ℚ) := (div_lt_iff₀ hnq).mp h3
          linarith
        have hfln : ⌊w / mn⌋ < (n : ℤ) := Int.floor_lt.mpr (by exact_mod_cast hlt)
        exact ⟨_, _, rfl, le_refl _, hfl1, le_of_lt hfln, fun _ _ => hfln⟩

/-! Claim theorems. -/

/-- Claim C2, counterexample. For the dictionary result
"즐거울 락, 노래 악, 좋아할 요" and the preferred sound 악, the claim
expects 노래 악; `get_hanja_meaning` instead returns the first
candidate 즐거울 락, because its trailing sound 락 already belongs to
the same sound family as 악 and the scan takes the first family
match. -/
theorem C2_counterexample :
    get_hanja_meaning lakDict "樂".toList (some "악".toList) = "즐거울 락".toList ∧
    ¬ get_hanja_meaning lakDict "樂".toList (some "악".toList) = "노래 악".toList := by
  decide

/-- Claim C2, amended. With the candidate list
"즐거울 락, 노래 악, 좋아할 요" and no override entry,
`get_hanja_meaning` returns 즐거울 락 for the preferred sounds 악 and
낙 alike — the first candidate whose sound is family-equivalent wins
over the later exact match — and also returns the first candidate
즐거울 락 when no preferred sound is supplied. -/
theorem C2_gloss_resolution :
    get_hanja_meaning lakDict "樂".toList (some "악".toList) = "즐거울 락".toList ∧
    get_hanja_meaning lakDict "樂".toList (some "낙".toList) = "즐거울 락".toList ∧
    get_hanja_meaning lakDict "樂".toList none = "즐거울 락".toList := by
  decide

/-- Claim C5: for one to six characters the layout returns the
character count as characters per line and the cell
`min(usableWidth / charCount, maxCell)` clamped up to `minCell`; for
nine characters over width 180 with minimum 20 it returns cell 20 and
nine per line, and for twelve characters it falls to the wrap rule
with cell 20 and nine per line. -/
theorem C5_layout_policy (w mn mx : ℚ) (n : ℕ) (h1 : 1 ≤ n) (h6 : n ≤ 6) :
    calculate_layout w mn mx n = some (max (min (w / (n : ℚ)) mx) mn, (n : ℤ)) ∧
    calculate_layout 180 20 30 9 = some (20, 9) ∧
    calculate_layout 180 20 30 12 = some (20, 9) := by
  refine ⟨?_, by with_unfolding_all decide, by with_unfolding_all decide⟩
  have hn0 : n ≠ 0 := by omega
  unfold calculate_layout
  rw [if_neg hn0, if_pos h6]

/-- Witness for C5 at three characters, width 180, bounds 20 and 30. -/
theorem C5_layout_policy_witness :
    ((1 ≤ 3 ∧ 3 ≤ 6) ∧
      calculate_layout 180 20 30 3 = some (max (min ((180 : ℚ) / ((3 : ℕ) : ℚ)) 30) 20, ((3 : ℕ) : ℤ)) ∧
      calculate_layout 180 20 30 9 = some (20, 9) ∧
      calculate_layout 180 20 30 12 = some (20, 9)) :=
  ⟨⟨by omega, by omega⟩, C5_layout_policy 180 20 30 3 (by omega) (by omega)⟩

/-- Claim C10: with at least one character, compatible cell bounds
and a usable width at least the minimum cell size, the layout yields
a cell at least the minimum and a characters-per-line count between
one and the character count, strictly below it in the wrap
fallback. -/
theorem C10_layout_invariants (w mn mx : ℚ) (n : ℕ) (h1 : 1 ≤ n) (_hmx : mn ≤ mx)
    (hw : mn ≤ w) :
    ∃ cell cpl, calculate_layout w mn mx n = some (cell, cpl) ∧
      mn ≤ cell ∧ 1 ≤ cpl ∧ cpl ≤ (n : ℤ) ∧
      (6 < n → w / (n : ℚ) < mn → cpl < (n : ℤ)) :=
  layout_spec w mn mx n h1 hw

/-- Witness for C10 at twelve characters, width 180, bounds 20 and 30. -/
theorem C10_layout_invariants_witness :
    ((1 ≤ 12 ∧ (20 : ℚ) ≤ 30 ∧ (20 : ℚ) ≤ 180) ∧
      ∃ cell cpl, calculate_layout 180 20 30 12 = some (cell, cpl) ∧
        20 ≤ cell ∧ 1 ≤ cpl ∧ cpl ≤ ((12 : ℕ) : ℤ) ∧
        (6 < 12 → (180 : ℚ) / ((12 : ℕ) : ℚ) < 20 → cpl < ((12 : ℕ) : ℤ))) :=
  ⟨⟨by omega, by norm_num, by norm_num⟩,
   C10_layout_invariants 180 20 30 12 (by omega) (by norm_num) (by norm_num)⟩

/-- Claim C8: a single character with an override entry, under the
raw character or (failing that) under its normalized form, resolves
to that override verbatim, for every preferred sound and every base
dictionary. -/
theorem C8_override_wins (custom base : List (Str × Str)) (normalize : Str → Str)
    (s m : Str) (pref : Option Str) (hlen : s.length = 1)
    (hover : lookupAssoc custom s = some m ∨
      (lookupAssoc custom s = none ∧ lookupAssoc custom (normalize s) = some m)) :
    get_hanja_meaning ⟨custom, base, normalize⟩ s pref = m := by
  rcases hover with h | ⟨h1, h2⟩
  · simp [get_hanja_meaning, hlen, h]
  · simp [get_hanja_meaning, hlen, h1, h2]

/-- Witness for C8: the override gloss 풍류 악 for 樂 wins over the
base dictionary entry even when a preferred sound selects another
candidate there. -/
theorem C8_override_wins_witness :
    (("樂".toList.length = 1 ∧ lookupAssoc customLak "樂".toList = some "풍류 악".toList) ∧
      get_hanja_meaning ⟨customLak, lakDict.base, id⟩ "樂".toList (some "요".toList) =
        "풍류 악".toList) :=
  ⟨⟨by decide, by decide⟩,
   C8_override_wins customLak lakDict.base id "樂".toList "풍류 악".toList
     (some "요".toList) (by decide) (Or.inl (by decide))⟩

/-- A successful association-list lookup exposes the key-value pair
as a member of the table. -/
theorem lookupAssoc_mem {d : List (Str × Str)} {k v : Str}
    (h : lookupAssoc d k = some v) : (k, v) ∈ d := by
  unfold lookupAssoc at h
  obtain ⟨p, hp, hv⟩ := Option.map_eq_some'.mp h
  have hmem := List.mem_of_find?_eq_some hp
  have hpred := List.find?_some hp
  obtain ⟨a, b⟩ := p
  have ha : a = k := by simpa using hpred
  subst ha
  subst hv
  exact hmem

/-- A candidate accepted by the preferred-sound scan has a trailing
token, hence is non-empty. -/
theorem matchesSound_ne_nil {pref cand : Str} (h : matchesSound pref cand = true) :
    cand ≠ [] := by
  intro hc
  subst hc
  simp [matchesSound, splitWS, splitWSAux] at h

/-- If the first candidate of a dictionary result is non-empty, the
candidate-selection tail returns a non-empty gloss. -/
theorem resolveFromResult_ne_nil {result : Str} (pref : Option Str)
    (h : firstCandidate result ≠ []) : resolveFromResult result pref ≠ [] := by
  have hfb : (splitCandidates result).headD [] ≠ [] := h
  unfold resolveFromResult
  match pref with
  | none => exact hfb
  | some p =>
    by_cases hp : p = []
    · simp only [hp, if_pos rfl]
      exact hfb
    · simp only [if_neg hp]
      cases hfind : (splitCandidates result).find? (matchesSound p) with
      | none => exact hfb
      | some cand => exact matchesSound_ne_nil (List.find?_some hfind)

/-- A truthy base-dictionary result is a value stored in the table. -/
theorem getD_ne_nil_mem {d : List (Str × Str)} {k : Str}
    (h : (lookupAssoc d k).getD [] ≠ []) :
    lookupAssoc d k = some ((lookupAssoc d k).getD []) ∧
      (k, (lookupAssoc d k).getD []) ∈ d := by
  cases hl : lookupAssoc d k with
  | none => rw [hl] at h; simp at h
  | some v =>
    constructor
    · simp
    · simpa using lookupAssoc_mem hl

/-- Claim C9: under well-formed collaborator tables, the resolver
returns the empty string exactly when the input is not a single
character, or there is no override entry under the raw or normalized
form and both base-dictionary lookups miss; in every other case the
returned gloss is non-empty. The resolver is a total function, so no
error is ever raised. -/
theorem C9_empty_exactly_when (d : DictEnv) (s : Str) (pref : Option Str)
    (hwf : dictWF d) :
    (get_hanja_meaning d s pref = [] ↔
      (s.length ≠ 1 ∨
        (lookupAssoc d.custom s = none ∧ lookupAssoc d.custom (d.normalize s) = none ∧
         (lookupAssoc d.base (d.normalize s)).getD [] = [] ∧
         (lookupAssoc d.base s).getD [] = []))) := by
  by_cases hl : s.length = 1
  case neg =>
    constructor
    · intro _
      exact Or.inl hl
    · intro _
      simp [get_hanja_meaning, hl]
  case pos =>
    unfold get_hanja_meaning
    rw [if_neg (by simp [hl])]
    cases hc : lookupAssoc d.custom s with
    | some m =>
      have hm : m ≠ [] := by simpa using hwf.1 (s, m) (lookupAssoc_mem hc)
      simp [hc, hm, hl]
    | none =>
      cases hcn : lookupAssoc d.custom (d.normalize s) with
      | some m =>
        have hm : m ≠ [] := by simpa using hwf.1 _ (lookupAssoc_mem hcn)
        simp [hc, hcn, hm, hl]
      | none =>
        by_cases hz1 : (lookupAssoc d.base (d.normalize s)).getD [] = []
        · by_cases hz2 : (lookupAssoc d.base s).getD [] = []
          · simp [hc, hcn, hz1, hz2, hl]
          · obtain ⟨hsome, hmem⟩ := getD_ne_nil_mem hz2
            have hfc : firstCandidate ((lookupAssoc d.base s).getD []) ≠ [] := by
              simpa using hwf.2 _ hmem
            have hres := resolveFromResult_ne_nil pref hfc
            simp [hc, hcn, hz1, hz2, hl, hres]
        · obtain ⟨hsome, hmem⟩ := getD_ne_nil_mem hz1
          have hfc : firstCandidate ((lookupAssoc d.base (d.normalize s)).getD []) ≠ [] := by
            simpa using hwf.2 _ hmem
          have hres := resolveFromResult_ne_nil pref hfc
          simp [hc, hcn, hz1, hl, hres]

/-- Witness for C9 at a table holding an override for 樂 and a base
entry for 子, queried at 子. -/
theorem C9_empty_exactly_when_witness :
    (dictWF mixedDict ∧
      (get_hanja_meaning mixedDict "子".toList none = [] ↔
        ("子".toList.length ≠ 1 ∨
          (lookupAssoc mixedDict.custom "子".toList = none ∧
           lookupAssoc mixedDict.custom (mixedDict.normalize "子".toList) = none ∧
           (lookupAssoc mixedDict.base (mixedDict.normalize "子".toList)).getD [] = [] ∧
           (lookupAssoc mixedDict.base "子".toList).getD [] = [])))) :=
  ⟨⟨by decide, by decide⟩,
   C9_empty_exactly_when mixedDict "子".toList none ⟨by decide, by decide⟩⟩

/-- A passage whose layout yields zero characters per line draws its
page break and label and then aborts inside the original row's line
chunking, before any row content. -/
theorem passage_aborts_after_label (cfg : Config) (env : Env) (p : Passage) (cell : ℚ)
    (hz : calculate_layout cfg.usable_width cfg.min_cell_size cfg.max_cell_size
        p.original.length = some (cell, 0)) :
    render_passage cfg env p =
      ([DrawOp.addPage,
        DrawOp.text cfg.margin_left (cfg.margin_top + cfg.label_height * (65/100)) p.label],
       none) := by
  unfold render_passage
  rw [hz]
  simp [render_original_row, pyChunks]

/-- The wrap fallback at usable width 10 with minimum cell 20 and
seven characters returns zero characters per line, without any
error. -/
theorem narrow_layout_zero :
    calculate_layout narrowConfig.usable_width narrowConfig.min_cell_size
        narrowConfig.max_cell_size sevenPassage.original.length = some (20, 0) := by
  with_unfolding_all decide

/-- Claim C4, counterexample. With usable width 10 below the minimum
cell size 20 and a seven-character passage, the wrap fallback
computes zero characters per line; no validation rejects this before
drawing: the build emits the passage's page break and its label text
and only then fails, inside the original row's line chunking. -/
theorem C4_counterexample :
    calculate_layout narrowConfig.usable_width narrowConfig.min_cell_size
        narrowConfig.max_cell_size sevenPassage.original.length = some (20, 0) ∧
    generate narrowConfig (flatEnv jaDict) [sevenPassage] =
      [[DrawOp.addPage,
        DrawOp.text narrowConfig.margin_left
          (narrowConfig.margin_top + narrowConfig.label_height * (65/100))
          sevenPassage.label]] := by
  refine ⟨narrow_layout_zero, ?_⟩
  unfold generate
  rw [passage_aborts_after_label narrowConfig (flatEnv jaDict) sevenPassage 20
    narrow_layout_zero]

/-- Claim C4, amended. No pre-render validation exists: whenever the
layout yields zero characters per line, `render_passage` first emits
the page break and the label drawing call and only then aborts, with
nothing of the row content drawn. -/
theorem C4_no_prevalidation (cfg : Config) (env : Env) (p : Passage) (cell : ℚ)
    (hz : calculate_layout cfg.usable_width cfg.min_cell_size cfg.max_cell_size
        p.original.length = some (cell, 0)) :
    render_passage cfg env p =
      ([DrawOp.addPage,
        DrawOp.text cfg.margin_left (cfg.margin_top + cfg.label_height * (65/100)) p.label],
       none) :=
  passage_aborts_after_label cfg env p cell hz

/-- Witness for C4 at the narrow configuration and the
seven-character passage. -/
theorem C4_no_prevalidation_witness :
    (calculate_layout narrowConfig.usable_width narrowConfig.min_cell_size
        narrowConfig.max_cell_size sevenPassage.original.length = some (20, 0) ∧
      render_passage narrowConfig (flatEnv jaDict) sevenPassage =
        ([DrawOp.addPage,
          DrawOp.text narrowConfig.margin_left
            (narrowConfig.margin_top + narrowConfig.label_height * (65/100))
            sevenPassage.label],
         none)) :=
  ⟨narrow_layout_zero,
   C4_no_prevalidation narrowConfig (flatEnv jaDict) sevenPassage 20 narrow_layout_zero⟩

@[simp] theorem isPageOrGrid_addPage : isPageOrGrid DrawOp.addPage = true := rfl

@[simp] theorem isPageOrGrid_text (x y : ℚ) (t : Str) :
    isPageOrGrid (DrawOp.text x y t) = false := rfl

@[simp] theorem isPageOrGrid_meaningText (x y : ℚ) (t : Str) :
    isPageOrGrid (DrawOp.meaningText x y t) = false := rfl

@[simp] theorem isPageOrGrid_line (a b c d : ℚ) :
    isPageOrGrid (DrawOp.line a b c d) = true := rfl

@[simp] theorem isPageOrGrid_rect (a b c d : ℚ) :
    isPageOrGrid (DrawOp.rect a b c d) = true := rfl

@[simp] theorem isPageOrGrid_multiCell (x y : ℚ) (t : Str) :
    isPageOrGrid (DrawOp.multiCell x y t) = false := rfl

/-- A trace of page breaks and bare grid strokes places no gloss. -/
theorem ghostGlosses_of_pageOrGrid :
    ∀ ops : List DrawOp, ops.all isPageOrGrid = true → ghostGlosses ops = [] := by
  intro ops
  induction ops with
  | nil => intro _; rfl
  | cons op rest ih =>
    intro h
    simp only [List.all_cons, Bool.and_eq_true] at h
    have hop : glossOf op = none := by
      cases op <;> simp_all
    simp only [ghostGlosses, List.filterMap_cons, hop]
    exact ih h.2

theorem countAddPage_gridCellOps (x y s : ℚ) : countAddPage (gridCellOps x y s) = 0 := rfl

theorem countAddPage_ghostCellOps (cfg : Config) (env : Env) (fs cell x y : ℚ) (ch : Char) :
    countAddPage (ghostCellOps cfg env fs cell x y ch) = 0 := by
  simp only [ghostCellOps]
  split_ifs <;> simp [gridCellOps, dashedCrossOps]

theorem ghostGlosses_ghostCellOps (cfg : Config) (env : Env) (fs cell x y : ℚ) (ch : Char) :
    ghostGlosses (ghostCellOps cfg env fs cell x y ch) =
      (if get_hanja_meaning env.dict [ch] none = [] then []
       else [get_hanja_meaning env.dict [ch] none]) := by
  simp only [ghostCellOps]
  split_ifs with h1 h2 <;> simp [gridCellOps, dashedCrossOps, ghostGlosses]

theorem countAddPage_ghostLineOps (cfg : Config) (env : Env) (fs cell y : ℚ) :
    ∀ (l : Str) (x : ℚ), countAddPage (ghostLineOps cfg env fs cell y l x) = 0 := by
  intro l
  induction l with
  | nil => intro x; rfl
  | cons ch rest ih =>
    intro x
    simp [ghostLineOps, countAddPage_ghostCellOps, ih]

theorem countAddPage_ghostLinesOps (cfg : Config) (env : Env) (fs cell rh : ℚ) :
    ∀ (lines : List Str) (y : ℚ),
      countAddPage (ghostLinesOps cfg env fs cell rh lines y).1 = 0 := by
  intro lines
  induction lines with
  | nil => intro y; rfl
  | cons l ls ih =>
    intro y
    simp [ghostLinesOps, countAddPage_ghostLineOps, ih]

theorem ghostGlosses_ghostLineOps (cfg : Config) (env : Env) (fs cell y : ℚ) :
    ∀ (l : Str) (x : ℚ),
      ghostGlosses (ghostLineOps cfg env fs cell y l x) =
        (l.map (fun ch => get_hanja_meaning env.dict [ch] none)).filter
          (fun m => !(m == [])) := by
  intro l
  induction l with
  | nil => intro x; rfl
  | cons ch rest ih =>
    intro x
    simp only [ghostLineOps, ghostGlosses_append, ghostGlosses_ghostCellOps, ih,
      List.map_cons, List.filter_cons]
    by_cases h : get_hanja_meaning env.dict [ch] none = []
    · simp [h]
    · simp [h]

theorem ghostGlosses_ghostLinesOps (cfg : Config) (env : Env) (fs cell rh : ℚ) :
    ∀ (lines : List Str) (y : ℚ),
      ghostGlosses (ghostLinesOps cfg env fs cell rh lines y).1 =
        ((lines.flatten).map (fun ch => get_hanja_meaning env.dict [ch] none)).filter
          (fun m => !(m == [])) := by
  intro lines
  induction lines with
  | nil => intro y; rfl
  | cons l ls ih =>
    intro y
    simp [ghostLinesOps, ghostGlosses_ghostLineOps, ih, List.map_append, List.filter_append]

theorem countAddPage_originalLineOps (env : Env) (fs cell y : ℚ) :
    ∀ (l : Str) (x : ℚ), countAddPage (originalLineOps env fs cell y l x) = 0 := by
  intro l
  induction l with
  | nil => intro x; rfl
  | cons ch rest ih =>
    intro x
    simp [originalLineOps, ih]

theorem ghostGlosses_originalLineOps (env : Env) (fs cell y : ℚ) :
    ∀ (l : Str) (x : ℚ), ghostGlosses (originalLineOps env fs cell y l x) = [] := by
  intro l
  induction l with
  | nil => intro x; rfl
  | cons ch rest ih =>
    intro x
    simp only [originalLineOps, ghostGlosses_cons, glossOf_text]
    exact ih (x + cell)

theorem ghostGlosses_originalLinesOps (env : Env) (fs cell x0 : ℚ) :
    ∀ (lines : List Str) (y : ℚ),
      ghostGlosses (originalLinesOps env fs cell x0 lines y).1 = [] := by
  intro lines
  induction lines with
  | nil => intro y; rfl
  | cons l ls ih =>
    intro y
    simp [originalLinesOps, ghostGlosses_originalLineOps, ih]

theorem practiceLineOps_pageOrGrid (cell y : ℚ) :
    ∀ (k : ℕ) (x : ℚ), (practiceLineOps cell y k x).all isPageOrGrid = true := by
  intro k
  induction k with
  | zero => intro x; rfl
  | succ k ih =>
    intro x
    simp [practiceLineOps, gridCellOps, dashedCrossOps, ih]

theorem practiceLoop_pageOrGrid (cfg : Config) (cell : ℚ) (cpl : ℤ) :
    ∀ (k : ℕ) (rem : ℤ) (y : ℚ),
      (practiceLoop cfg cell cpl k rem y).1.all isPageOrGrid = true := by
  intro k
  induction k with
  | zero => intro rem y; rfl
  | succ k ih =>
    intro rem y
    simp [practiceLoop, practiceLineOps_pageOrGrid, ih]

theorem countAddPage_practiceLineOps (cell y : ℚ) :
    ∀ (k : ℕ) (x : ℚ), countAddPage (practiceLineOps cell y k x) = 0 := by
  intro k
  induction k with
  | zero => intro x; rfl
  | succ k ih =>
    intro x
    simp [practiceLineOps, gridCellOps, dashedCrossOps, ih]

theorem countAddPage_practiceLoop (cfg : Config) (cell : ℚ) (cpl : ℤ) :
    ∀ (k : ℕ) (rem : ℤ) (y : ℚ), countAddPage (practiceLoop cfg cell cpl k rem y).1 = 0 := by
  intro k
  induction k with
  | zero => intro rem y; rfl
  | succ k ih =>
    intro rem y
    simp [practiceLoop, countAddPage_practiceLineOps, ih]

theorem ghostGlosses_ruledLinesOps (cfg : Config) :
    ∀ (k : ℕ) (y : ℚ), ghostGlosses (ruledLinesOps cfg k y).1 = [] := by
  intro k
  induction k with
  | zero => intro y; rfl
  | succ k ih =>
    intro y
    simp only [ruledLinesOps, ghostGlosses_cons, glossOf_line]
    exact ih (y + cfg.interp_practice_height)

theorem ghostGlosses_interp_practice (cfg : Config) (y0 : ℚ) :
    ghostGlosses (render_interp_practice cfg y0).1 = [] := by
  simp only [render_interp_practice]
  split_ifs <;>
    simp [ghostGlosses_cons, ghostGlosses_ruledLinesOps]

/-- Chunking with a positive width and enough fuel partitions the
list: concatenating the chunks gives the list back. -/
theorem chunksAux_join {α : Type} :
    ∀ (fuel : ℕ) (l : List α) (k : ℕ), 1 ≤ k → l.length ≤ fuel →
      (chunksAux fuel l k).flatten = l := by
  intro fuel
  induction fuel with
  | zero =>
    intro l k hk hl
    have : l = [] := List.length_eq_zero.mp (Nat.le_zero.mp hl)
    subst this
    rfl
  | succ fuel ih =>
    intro l k hk hl
    cases l with
    | nil => rfl
    | cons a rest =>
      have hlen : ((a :: rest).drop k).length ≤ fuel := by
        have h1 : ((a :: rest).drop k).length = (a :: rest).length - k := by
          simp [List.length_drop]
        have h2 : (a :: rest).length = rest.length + 1 := by simp
        simp only [List.length_cons] at hl
        omega
      simp only [chunksAux, List.flatten_cons]
      rw [ih ((a :: rest).drop k) k hk hlen]
      exact List.take_append_drop k (a :: rest)

/-- With a positive characters-per-line count the Python slicing loop
succeeds and yields the fuel-indexed chunks. -/
theorem pyChunks_pos {α : Type} (l : List α) (cpl : ℤ) (h : 1 ≤ cpl) :
    pyChunks l cpl = some (chunksAux l.length l cpl.toNat) := by
  unfold pyChunks
  rw [if_neg (by omega), if_neg (by omega)]

/-- With a positive characters-per-line count the ceiling division
succeeds. -/
theorem pyCeilDiv_pos (n : ℕ) (cpl : ℤ) (h : 1 ≤ cpl) :
    pyCeilDiv n cpl = some ⌈(n : ℚ) / (cpl : ℚ)⌉ := by
  unfold pyCeilDiv
  rw [if_neg (by omega)]

/-- The original row succeeds whenever the characters-per-line count
is positive, and places no gloss operations. -/
theorem render_original_row_some (cfg : Config) (env : Env) (chars interp : Str)
    (cell : ℚ) (cpl : ℤ) (y0 : ℚ) (reading : Str) (h : 1 ≤ cpl) :
    ∃ ops yE, render_original_row cfg env chars interp cell cpl y0 reading = some (ops, yE) ∧
      ghostGlosses ops = [] := by
  unfold render_original_row
  rw [pyChunks_pos chars cpl h]
  refine ⟨_, _, rfl, ?_⟩
  by_cases hr : reading = [] <;>
    simp [hr, ghostGlosses_originalLinesOps, ghostGlosses_cons]

/-- The ghost row succeeds whenever the characters-per-line count is
positive, and the glosses it places are exactly the non-empty
hint-free lookups of the characters, in order. -/
theorem render_ghost_row_some (cfg : Config) (env : Env) (chars : Str) (cell : ℚ)
    (cpl : ℤ) (y0 : ℚ) (h : 1 ≤ cpl) :
    ∃ ops yE, render_ghost_row cfg env chars cell cpl y0 = some (ops, yE) ∧
      ghostGlosses ops =
        (chars.map (fun ch => get_hanja_meaning env.dict [ch] none)).filter
          (fun m => !(m == [])) := by
  have hjoin : (chunksAux chars.length chars cpl.toNat).flatten = chars :=
    chunksAux_join chars.length chars cpl.toNat (by omega) (le_refl _)
  unfold render_ghost_row
  rw [pyCeilDiv_pos chars.length cpl h, pyChunks_pos chars cpl h]
  refine ⟨_, _, rfl, ?_⟩
  split_ifs <;>
    simp [ghostGlosses_ghostLinesOps, hjoin, ghostGlosses_cons]

/-- When the ghost row's pre-checked block height overflows the
bottom margin, the row emits exactly one page break, first, and then
draws its body from the top margin. -/
theorem ghost_row_overflow (cfg : Config) (env : Env) (chars : Str) (cell : ℚ)
    (cpl : ℤ) (y0 : ℚ) (hcpl : 1 ≤ cpl)
    (hover : cfg.page_height - cfg.margin_bottom <
      y0 + (⌈(chars.length : ℚ) / (cpl : ℚ)⌉ : ℚ) * (cell + cfg.meaning_height)) :
    render_ghost_row cfg env chars cell cpl y0 =
      some (DrawOp.addPage :: (ghostBodyAt cfg env chars cell cpl).1,
        (ghostBodyAt cfg env chars cell cpl).2) ∧
    countAddPage (DrawOp.addPage :: (ghostBodyAt cfg env chars cell cpl).1) = 1 := by
  constructor
  · unfold render_ghost_row
    rw [pyCeilDiv_pos chars.length cpl hcpl, pyChunks_pos chars cpl hcpl]
    simp only [if_pos hover, ghostBodyAt]
    rfl
  · simp [ghostBodyAt, countAddPage_ghostLinesOps]

/-- The practice row succeeds whenever the characters-per-line count
is positive; its trace holds only page breaks and bare grid strokes;
and it emits one page break exactly when rows times the bare cell
size overflows the bottom margin. -/
theorem render_practice_row_spec (cfg : Config) (n : ℕ) (cell : ℚ) (cpl : ℤ)
    (y0 : ℚ) (h : 1 ≤ cpl) :
    (render_practice_row cfg n cell cpl y0).isSome = true ∧
    (opsOf (render_practice_row cfg n cell cpl y0)).all isPageOrGrid = true ∧
    countAddPage (opsOf (render_practice_row cfg n cell cpl y0)) =
      (if cfg.page_height - cfg.margin_bottom <
          y0 + (⌈(n : ℚ) / (cpl : ℚ)⌉ : ℚ) * cell then 1 else 0) := by
  unfold render_practice_row opsOf
  rw [pyCeilDiv_pos n cpl h]
  by_cases hov : cfg.page_height - cfg.margin_bottom <
      y0 + (⌈(n : ℚ) / (cpl : ℚ)⌉ : ℚ) * cell
  · refine ⟨rfl, ?_, ?_⟩ <;>
      simp [hov, practiceLoop_pageOrGrid, countAddPage_practiceLoop]
  · refine ⟨rfl, ?_, ?_⟩ <;>
      simp [hov, practiceLoop_pageOrGrid, countAddPage_practiceLoop]

/-- The practice row succeeds whenever the characters-per-line count
is positive, and places no gloss operations. -/
theorem render_practice_row_some (cfg : Config) (n : ℕ) (cell : ℚ) (cpl : ℤ)
    (y0 : ℚ) (h : 1 ≤ cpl) :
    ∃ ops yE, render_practice_row cfg n cell cpl y0 = some (ops, yE) ∧
      ghostGlosses ops = [] := by
  unfold render_practice_row
  rw [pyCeilDiv_pos n cpl h]
  refine ⟨_, _, rfl, ?_⟩
  apply ghostGlosses_of_pageOrGrid
  split_ifs <;> simp [practiceLoop_pageOrGrid]

/-- A passage with a successful layout and a positive
characters-per-line count renders completely: its trace is the page
break, then the label at the top margin, then the four rows; and the
glosses drawn in its ghost row are exactly the non-empty hint-free
lookups of its characters, whatever its reading is. -/
theorem render_passage_eq (cfg : Config) (env : Env) (p : Passage) (cell : ℚ) (cpl : ℤ)
    (hl : calculate_layout cfg.usable_width cfg.min_cell_size cfg.max_cell_size
      p.original.length = some (cell, cpl))
    (hcpl : 1 ≤ cpl) :
    ∃ rest yE, render_passage cfg env p =
        (DrawOp.addPage ::
          DrawOp.text cfg.margin_left (cfg.margin_top + cfg.label_height * (65/100)) p.label ::
          rest,
         some yE) ∧
      ghostGlosses rest =
        (p.original.map (fun ch => get_hanja_meaning env.dict [ch] none)).filter
          (fun m => !(m == [])) := by
  obtain ⟨ops1, y1, h1, hg1⟩ := render_original_row_some cfg env p.original p.interpretation
    cell cpl (cfg.margin_top + cfg.label_height) p.reading hcpl
  obtain ⟨ops2, y2, h2, hg2⟩ := render_ghost_row_some cfg env p.original cell cpl
    (y1 + cfg.row_gap) hcpl
  obtain ⟨ops3, y3, h3, hg3⟩ := render_practice_row_some cfg p.original.length cell cpl
    (y2 + cfg.row_gap) hcpl
  simp only [render_passage, hl, h1, h2, h3]
  refine ⟨_, _, rfl, ?_⟩
  simp [hg1, hg2, hg3, ghostGlosses_interp_practice, ghostGlosses_cons]

/-- One document build over passages with non-empty originals, on a
configuration whose usable width is at least the minimum cell size:
one block per passage, and every block opens with its own page break
followed by the label placed at the top margin. -/
theorem generate_shape (cfg : Config) (env : Env)
    (hw : cfg.min_cell_size ≤ cfg.usable_width) :
    ∀ ps : List Passage, (∀ p ∈ ps, p.original ≠ []) →
      (generate cfg env ps).length = ps.length ∧
      (∀ i (hb : i < (generate cfg env ps).length) (hp : i < ps.length),
        ∃ rest, (generate cfg env ps).get ⟨i, hb⟩ =
          DrawOp.addPage :: DrawOp.text cfg.margin_left
            (cfg.margin_top + cfg.label_height * (65/100)) ((ps.get ⟨i, hp⟩).label) ::
            rest) := by
  intro ps
  induction ps with
  | nil =>
    intro _
    exact ⟨rfl, fun i hb _ => absurd hb (by simp [generate])⟩
  | cons p rest ih =>
    intro hne
    have hp1 : p.original ≠ [] := hne p (by simp)
    have hn1 : 1 ≤ p.original.length := List.length_pos.mpr hp1
    obtain ⟨cell, cpl, hl, _, hcpl, _, _⟩ := layout_spec cfg.usable_width cfg.min_cell_size
      cfg.max_cell_size p.original.length hn1 hw
    obtain ⟨r, yE, heq, _⟩ := render_passage_eq cfg env p cell cpl hl hcpl
    obtain ⟨ihlen, ihget⟩ := ih (fun q hq => hne q (by simp [hq]))
    have hgen : generate cfg env (p :: rest) =
        (DrawOp.addPage :: DrawOp.text cfg.margin_left
          (cfg.margin_top + cfg.label_height * (65/100)) p.label :: r) ::
        generate cfg env rest := by
      simp [generate, heq]
    constructor
    · simp [hgen, ihlen]
    · intro i hb hp
      cases i with
      | zero => exact ⟨r, by simp [hgen]⟩
      | succ j =>
        have hb' : j < (generate cfg env rest).length := by
          rw [hgen] at hb
          simp only [List.length_cons] at hb
          omega
        have hp' : j < rest.length := by
          simp only [List.length_cons] at hp
          omega
        obtain ⟨rr, hrr⟩ := ihget j hb' hp'
        refine ⟨rr, ?_⟩
        simpa [hgen] using hrr

theorem startPage_zero (blocks : List (List DrawOp)) : startPage blocks 0 = 1 := by
  simp [startPage]

theorem startPage_cons_succ (b : List DrawOp) (bs : List (List DrawOp)) (i : ℕ) :
    startPage (b :: bs) (i + 1) = countAddPage b + startPage bs i := by
  simp [startPage]
  omega

theorem startPage_ge_one (blocks : List (List DrawOp)) (i : ℕ) :
    1 ≤ startPage blocks i := by
  simp [startPage]

/-- When every block of the build contains at least one page break,
the starting pages of the blocks strictly increase. -/
theorem startPage_mono :
    ∀ blocks : List (List DrawOp),
      (∀ i (h : i < blocks.length), 1 ≤ countAddPage (blocks.get ⟨i, h⟩)) →
      ∀ i j, i < j → j < blocks.length → startPage blocks i < startPage blocks j := by
  intro blocks
  induction blocks with
  | nil =>
    intro _ i j _ hj
    simp at hj
  | cons b bs ih =>
    intro hcnt i j hij hj
    cases j with
    | zero => omega
    | succ j' =>
      have hj' : j' < bs.length := by
        simp only [List.length_cons] at hj
        omega
      have hb1 : 1 ≤ countAddPage b := hcnt 0 (by simp)
      have hbs : ∀ i (h : i < bs.length), 1 ≤ countAddPage (bs.get ⟨i, h⟩) := by
        intro m hm
        have := hcnt (m + 1) (by simp only [List.length_cons]; omega)
        simpa using this
      cases i with
      | zero =>
        rw [startPage_zero, startPage_cons_succ]
        have := startPage_ge_one bs j'
        omega
      | succ i' =>
        rw [startPage_cons_succ, startPage_cons_succ]
        have := ih hbs i' j' (by omega) hj'
        omega

/-- Claim C6: in every build over passages with non-empty originals,
every passage begins rendering at the top margin of a page created
for it at the start of its own rendering, and the starting pages
strictly increase, so no two passages share a starting page. -/
theorem C6_fresh_pages (cfg : Config) (env : Env) (ps : List Passage)
    (hw : cfg.min_cell_size ≤ cfg.usable_width)
    (hne : ∀ p ∈ ps, p.original ≠ []) :
    freshPageSpec cfg env ps := by
  obtain ⟨hlen, hget⟩ := generate_shape cfg env hw ps hne
  refine ⟨hlen, hget, ?_⟩
  intro i j hij hj
  apply startPage_mono (generate cfg env ps) ?_ i j hij hj
  intro m hm
  obtain ⟨rest, hr⟩ := hget m hm (hlen ▸ hm)
  rw [hr]
  simp

/-- Witness for C6 at the default configuration and two passages. -/
theorem C6_fresh_pages_witness :
    (defaultConfig.min_cell_size ≤ defaultConfig.usable_width ∧
      (∀ p ∈ twoPassages, p.original ≠ []) ∧
      freshPageSpec defaultConfig (flatEnv jaDict) twoPassages) :=
  ⟨by with_unfolding_all decide, by decide,
   C6_fresh_pages defaultConfig (flatEnv jaDict) twoPassages
     (by with_unfolding_all decide) (by decide)⟩

/-- Claim C7: for every starting offset past the bottom-margin
threshold, the ghost row creates exactly one new page before drawing
and draws its body from the top margin, however far past the
threshold the offset is. -/
theorem C7_ghost_page_break (cfg : Config) (env : Env) (chars : Str) (cell : ℚ)
    (cpl : ℤ) (y0 : ℚ) (hcpl : 1 ≤ cpl)
    (hover : cfg.page_height - cfg.margin_bottom <
      y0 + (⌈(chars.length : ℚ) / (cpl : ℚ)⌉ : ℚ) * (cell + cfg.meaning_height)) :
    render_ghost_row cfg env chars cell cpl y0 =
      some (DrawOp.addPage :: (ghostBodyAt cfg env chars cell cpl).1,
        (ghostBodyAt cfg env chars cell cpl).2) ∧
    countAddPage (DrawOp.addPage :: (ghostBodyAt cfg env chars cell cpl).1) = 1 :=
  ghost_row_overflow cfg env chars cell cpl y0 hcpl hover

/-- Witness for C7 at a one-character row, cell 30, offset 250 on the
default page: the pre-checked bottom 285 exceeds the 282 threshold. -/
theorem C7_ghost_page_break_witness :
    ((1 : ℤ) ≤ 1 ∧
      defaultConfig.page_height - defaultConfig.margin_bottom <
        250 + (⌈(("子".toList : Str).length : ℚ) / ((1 : ℤ) : ℚ)⌉ : ℚ) *
          (30 + defaultConfig.meaning_height) ∧
      (render_ghost_row defaultConfig (flatEnv jaDict) "子".toList 30 1 250 =
        some (DrawOp.addPage ::
            (ghostBodyAt defaultConfig (flatEnv jaDict) "子".toList 30 1).1,
          (ghostBodyAt defaultConfig (flatEnv jaDict) "子".toList 30 1).2) ∧
       countAddPage (DrawOp.addPage ::
          (ghostBodyAt defaultConfig (flatEnv jaDict) "子".toList 30 1).1) = 1)) :=
  ⟨le_refl 1, by with_unfolding_all decide,
   C7_ghost_page_break defaultConfig (flatEnv jaDict) "子".toList 30 1 250
     (le_refl 1) (by with_unfolding_all decide)⟩

/-- Claim C1, counterexample. The passage 復 with reading 복 has
exactly as many extracted phonetic syllables as source characters,
yet the composer draws the hint-free gloss 다시 부 in the ghost row
rather than 회복할 복, the gloss the 1:1 sound hint would select: no
per-character sound hints are ever supplied. -/
theorem C1_counterexample :
    (extract_phonetic_syllables bokPassage.reading).length = bokPassage.original.length ∧
    ghostGlosses (render_passage defaultConfig (flatEnv bokDict) bokPassage).1 =
      ["다시 부".toList] ∧
    get_hanja_meaning bokDict "復".toList (some "복".toList) = "회복할 복".toList := by
  refine ⟨by decide, ?_, by decide⟩
  obtain ⟨rest, yE, heq, hg⟩ := render_passage_eq defaultConfig (flatEnv bokDict)
    bokPassage 30 1 (by with_unfolding_all decide) (le_refl 1)
  rw [heq]
  simp only [ghostGlosses_cons, glossOf_addPage, glossOf_text, hg]
  decide

/-- Claim C1, amended. The composer never derives sound hints from
the reading: for every passage that renders, the glosses drawn in the
ghost row are exactly the non-empty results of the hint-free lookups
of its source characters, in order, whatever the reading and its
syllable count are. -/
theorem C1_no_sound_hints (cfg : Config) (env : Env) (p : Passage) (cell : ℚ)
    (cpl : ℤ)
    (hl : calculate_layout cfg.usable_width cfg.min_cell_size cfg.max_cell_size
      p.original.length = some (cell, cpl))
    (hcpl : 1 ≤ cpl) :
    ghostGlosses (render_passage cfg env p).1 =
      (p.original.map (fun ch => get_hanja_meaning env.dict [ch] none)).filter
        (fun m => !(m == [])) := by
  obtain ⟨rest, yE, heq, hg⟩ := render_passage_eq cfg env p cell cpl hl hcpl
  rw [heq]
  simpa [ghostGlosses_cons] using hg

/-- Witness for C1 at the one-character passage 復. -/
theorem C1_no_sound_hints_witness :
    (calculate_layout defaultConfig.usable_width defaultConfig.min_cell_size
        defaultConfig.max_cell_size bokPassage.original.length = some (30, 1) ∧
      (1 : ℤ) ≤ 1 ∧
      ghostGlosses (render_passage defaultConfig (flatEnv bokDict) bokPassage).1 =
        (bokPassage.original.map
          (fun ch => get_hanja_meaning (flatEnv bokDict).dict [ch] none)).filter
          (fun m => !(m == []))) :=
  ⟨by with_unfolding_all decide, le_refl 1,
   C1_no_sound_hints defaultConfig (flatEnv bokDict) bokPassage 30 1
     (by with_unfolding_all decide) (le_refl 1)⟩

/-- Claim C3, counterexample. At the same cell size 30, one
character per line and offset 250 on the default page, the ghost row
breaks to a new page (250 + 35 exceeds 282) while the practice row
does not (250 + 30 stays within 282), so their pre-checks differ; and
the ghost row draws a gloss box while the practice row draws none. -/
theorem C3_counterexample :
    countAddPage (opsOf (render_ghost_row defaultConfig (flatEnv jaDict)
      "子".toList 30 1 250)) = 1 ∧
    countAddPage (opsOf (render_practice_row defaultConfig 1 30 1 250)) = 0 ∧
    ghostGlosses (opsOf (render_ghost_row defaultConfig (flatEnv jaDict)
      "子".toList 30 1 250)) = ["아들 자".toList] ∧
    ghostGlosses (opsOf (render_practice_row defaultConfig 1 30 1 250)) = [] := by
  obtain ⟨heq, hcnt⟩ := ghost_row_overflow defaultConfig (flatEnv jaDict) "子".toList
    30 1 250 (le_refl 1) (by with_unfolding_all decide)
  obtain ⟨hsome, hall, hcnt2⟩ := render_practice_row_spec defaultConfig 1 30 1 250
    (le_refl 1)
  have hcnt2z : countAddPage (opsOf (render_practice_row defaultConfig 1 30 1 250)) = 0 := by
    rw [hcnt2, if_neg (by with_unfolding_all decide)]
  refine ⟨?_, hcnt2z, ?_, ghostGlosses_of_pageOrGrid _ hall⟩
  · rw [heq]
    simpa [opsOf] using hcnt
  · rw [heq]
    simp only [opsOf, ghostGlosses_cons, glossOf_addPage, ghostBodyAt,
      ghostGlosses_ghostLinesOps]
    decide

/-- Claim C3, amended. The practice row draws only page breaks and
bare grid strokes — no character and no annotation box — and its
overflow pre-check uses rows times the bare cell size, without the
annotation-box height the ghost row adds per line. -/
theorem C3_practice_row (cfg : Config) (n : ℕ) (cell : ℚ) (cpl : ℤ) (y0 : ℚ)
    (h : 1 ≤ cpl) :
    (render_practice_row cfg n cell cpl y0).isSome = true ∧
    (opsOf (render_practice_row cfg n cell cpl y0)).all isPageOrGrid = true ∧
    countAddPage (opsOf (render_practice_row cfg n cell cpl y0)) =
      (if cfg.page_height - cfg.margin_bottom <
          y0 + (⌈(n : ℚ) / (cpl : ℚ)⌉ : ℚ) * cell then 1 else 0) :=
  render_practice_row_spec cfg n cell cpl y0 h

/-- Witness for C3 at one character, cell 30, offset 250. -/
theorem C3_practice_row_witness :
    ((1 : ℤ) ≤ 1 ∧
      ((render_practice_row defaultConfig 1 30 1 250).isSome = true ∧
        (opsOf (render_practice_row defaultConfig 1 30 1 250)).all isPageOrGrid = true ∧
        countAddPage (opsOf (render_practice_row defaultConfig 1 30 1 250)) =
          (if defaultConfig.page_height - defaultConfig.margin_bottom <
              250 + (⌈((1 : ℕ) : ℚ) / ((1 : ℤ) : ℚ)⌉ : ℚ) * 30 then 1 else 0))) :=
  ⟨le_refl 1, C3_practice_row defaultConfig 1 30 1 250 (le_refl 1)⟩

end Analects